import Mathlib

/-!
Shallow embedding of `src/index.js` of the `web3-utils` repository.

Two components are modelled:

* `checkRpcSync` (SyncChecker): queries every RPC endpoint for its latest
  block number, maps failed queries to `null`, computes
  `maxBlock = Math.max(...blocks)` (JavaScript coerces `null` to `0`),
  prints one classified line per endpoint, and finally succeeds or throws
  depending on the main endpoint's height.

* `waitForTx` / `waitForTxUsingSubscribePendingTransactions`
  (MempoolWatcher): subscribes to the pending-transaction feed; every
  `data` event resolves the hash to a transaction and evaluates the
  caller's predicate; a match calls `subscription.unsubscribe()` and
  `resolve(tx)`.

Network results are supplied as explicit oracles (`Heights`, `getTx`), and
the in-place mutation of the caller's `rpcs` array is modelled by returning
the array's final state.  The asynchronous watcher is modelled by its
event-loop linearisation: each `data` handler, after its `await`s, runs its
match-check/unsubscribe/resolve block atomically on the event loop, so a
run is a list of handler completions (in completion order) and feed error
events.
-/

namespace Web3Utils

/-- Height oracle: the settled outcome of `(new Web3(rpc)).eth.getBlockNumber()`
per endpoint URL; `none` models a rejected query (mapped to `null` by the code). -/
abbrev Heights := String → Option Int

/-- `if (!rpcs.includes(mainRpc)) rpcs.push(mainRpc)` — the final state of the
caller's `rpcs` array (the push mutates the argument in place). -/
def rpcsAfterPush (mainRpc : String) (rpcs : List String) : List String :=
  if mainRpc ∈ rpcs then rpcs else rpcs ++ [mainRpc]

/-- JavaScript numeric coercion applied by `Math.max` to a settled block
result: `null` coerces to `0`, a number is itself. -/
def jsCoerceNull : Option Int → Int
  | none => 0
  | some h => h

/-- `Math.max(...blocks)`.  In `checkRpcSync` the list always contains the
main endpoint's entry, so the empty case (`Math.max()` = `-Infinity`) is
unreachable; it is mapped to `0` here. -/
def jsMathMax : List (Option Int) → Int
  | [] => 0
  | b :: bs => bs.foldl (fun acc x => max acc (jsCoerceNull x)) (jsCoerceNull b)

/-- The `blocks` array of `checkRpcSync`: one `getBlockNumber` outcome per
element of the (post-push) `rpcs` array. -/
def blocksOf (heights : Heights) (mainRpc : String) (rpcs : List String) : List (Option Int) :=
  (rpcsAfterPush mainRpc rpcs).map heights

/-- Per-endpoint classification, from the colour switch in `checkRpcSync`:
`null` is printed red as unreachable, `maxBlock` green, `maxBlock - 1`
yellow, anything else red (stale). -/
inductive SyncClassification where
  | upToDate
  | oneBehind
  | stale
  | unreachable
  deriving Repr, DecidableEq

/-- The classification computed by the report loop of `checkRpcSync` for one
`blocks[i]` entry, given `maxBlock`. -/
def classifyBlock (maxBlock : Int) : Option Int → SyncClassification
  | none => .unreachable
  | some b =>
    if b = maxBlock then .upToDate
    else if b = maxBlock - 1 then .oneBehind
    else .stale

/-- One console line of the report loop: the endpoint, its block result, its
colour classification, and whether it was printed in white as the main RPC
(`rpcs[i] === mainRpc`). -/
structure ReportLine where
  rpc : String
  block : Option Int
  classification : SyncClassification
  isMain : Bool
  deriving Repr, DecidableEq

/-- The errors `checkRpcSync` can throw after the report loop. -/
inductive CheckRpcError where
  | mainUnreachable (mainRpc : String)
  | mainTooFarBehind (mainRpc : String) (mainRpcBlock maxBlock : Int)
  deriving Repr, DecidableEq

/-- The exact message string of each `throw new Error(...)` in the main-RPC
decision of `checkRpcSync`. -/
def renderCheckError : CheckRpcError → String
  | .mainUnreachable m => "The main RPC " ++ m ++ " is probably down"
  | .mainTooFarBehind m b mx =>
      "The main RPC " ++ m ++ " is at block " ++ toString b ++ "/" ++ toString mx

/-- Successful outcomes of `checkRpcSync`: the green "up to speed" log or the
yellow "one block behind" warning. -/
inductive CheckVerdict where
  | healthy
  | oneBlockBehind
  deriving Repr, DecidableEq

deriving instance DecidableEq for Except

/-- Everything observable about one `checkRpcSync` call: the final state of
the caller's `rpcs` array, the computed `maxBlock`, the printed report
lines, and the returned/thrown outcome. -/
structure CheckRun where
  rpcsFinal : List String
  maxBlock : Int
  report : List ReportLine
  result : Except CheckRpcError CheckVerdict
  deriving Repr, DecidableEq

/-- `checkRpcSync(mainRpc, rpcs)` from `src/index.js` (the `mainRpc == null`
guard is outside this model: `mainRpc` is a string by type).  The report is
computed before the main-RPC decision, exactly as the code prints it before
any throw; `mainRpcBlock` is read as `blocks[rpcs.indexOf(mainRpc)]`. -/
def checkRpcSync (heights : Heights) (mainRpc : String) (rpcs : List String) : CheckRun :=
  let rpcsAll := rpcsAfterPush mainRpc rpcs
  let blocks := rpcsAll.map heights
  let maxBlock := jsMathMax blocks
  let report := rpcsAll.map fun rpc =>
    { rpc := rpc
      block := heights rpc
      classification := classifyBlock maxBlock (heights rpc)
      isMain := rpc == mainRpc }
  let mainRpcBlock := blocks.getD (rpcsAll.indexOf mainRpc) none
  let result : Except CheckRpcError CheckVerdict :=
    match mainRpcBlock with
    | none => .error (.mainUnreachable mainRpc)
    | some b =>
      if b = maxBlock then .ok .healthy
      else if b = maxBlock - 1 then .ok .oneBlockBehind
      else .error (.mainTooFarBehind mainRpc b maxBlock)
  ⟨rpcsAll, maxBlock, report, result⟩

/-- The spec's definition of the maximum height: the maximum over the
successfully returned (non-`null`) heights, undefined when all failed.
Stated from the spec's words, to be compared with the code's
`Math.max(...blocks)` computation. -/
def specMaxHeight (blocks : List (Option Int)) : Option Int :=
  match blocks.filterMap id with
  | [] => none
  | h :: t => some (t.foldl max h)

/-- One event-loop occurrence inside a
`waitForTxUsingSubscribePendingTransactions` session.  `dataDone h` is the
completion of the asynchronous `data` handler spawned for the emitted hash
`h`: after its `await _web3.eth.getTransaction(txHash)` and
`await matchF(tx)` settle, the remaining match-check / `unsubscribe()` /
`resolve(tx)` block runs atomically on the event loop.  A run of the
session is a list of such occurrences in completion order (which need not
be emission order), together with feed `error` events. -/
inductive FeedEvent where
  | dataDone (txHash : String)
  | errorEvent (err : String)
  deriving Repr, DecidableEq

/-- Observable state of one watch session: the settlement of the `Promise`
returned to the caller (`resolve`/`reject`), the number of
`subscription.unsubscribe()` calls made, and the errors that escaped the
event handlers (a `throw` inside the `error` listener, or the rejection of
the `async` `data` handler when `matchF` throws) — these never settle the
caller's `Promise`. -/
structure WatchSession where
  resolvedWith : Option String
  rejectedWith : Option String
  unsubscribeCalls : Nat
  uncaughtErrors : List String
  deriving Repr, DecidableEq

/-- Session state right after `_web3.eth.subscribe('pendingTransactions')`:
promise pending, no unsubscribe call made, no escaped error. -/
def initSession : WatchSession :=
  { resolvedWith := none, rejectedWith := none, unsubscribeCalls := 0, uncaughtErrors := [] }

/-- `resolve(tx)`: a JavaScript `Promise` settles at most once, so a call on
an already-settled promise is a no-op. -/
def promiseResolve (s : WatchSession) (tx : String) : WatchSession :=
  if s.resolvedWith = none ∧ s.rejectedWith = none then
    { s with resolvedWith := some tx }
  else s

/-- Completion of one `data` handler, from the code
`const tx = await _web3.eth.getTransaction(txHash);
if (tx != null && (await matchF(tx))) { subscription.unsubscribe(); resolve(tx) }`.
A `null` transaction is skipped; a throwing `matchF` rejects the `async`
handler (an unhandled rejection — nothing catches it); a true match calls
`unsubscribe()` unconditionally (there is no `resolved` guard) and then
`resolve(tx)`. -/
def onData (getTx : String → Option String) (matchF : String → Except String Bool)
    (s : WatchSession) (txHash : String) : WatchSession :=
  match getTx txHash with
  | none => s
  | some tx =>
    match matchF tx with
    | .error e => { s with uncaughtErrors := s.uncaughtErrors ++ [e] }
    | .ok false => s
    | .ok true => promiseResolve { s with unsubscribeCalls := s.unsubscribeCalls + 1 } tx

/-- The feed `error` listener is `error => { throw error }`: the throw
escapes the event emitter as an uncaught exception; neither `reject` nor
`unsubscribe` is invoked. -/
def onError (s : WatchSession) (err : String) : WatchSession :=
  { s with uncaughtErrors := s.uncaughtErrors ++ [err] }

/-- Dispatch of one event-loop occurrence of a watch session. -/
def stepSession (getTx : String → Option String) (matchF : String → Except String Bool)
    (s : WatchSession) : FeedEvent → WatchSession
  | .dataDone h => onData getTx matchF s h
  | .errorEvent e => onError s e

/-- `waitForTxUsingSubscribePendingTransactions(matchF, options)` run over a
given linearised event sequence, starting from the freshly subscribed
session. -/
def waitForTxUsingSubscribePendingTransactions (getTx : String → Option String)
    (matchF : String → Except String Bool) (events : List FeedEvent) : WatchSession :=
  events.foldl (stepSession getTx matchF) initSession

/-- The transactions of the true-match completions of a run, in completion
order: the `dataDone` events whose hash resolves to a non-`null`
transaction on which `matchF` returns `true`. -/
def matchingCompletions (getTx : String → Option String)
    (matchF : String → Except String Bool) (events : List FeedEvent) : List String :=
  events.filterMap fun e =>
    match e with
    | .dataDone h =>
      match getTx h with
      | none => none
      | some tx =>
        match matchF tx with
        | .ok true => some tx
        | _ => none
    | .errorEvent _ => none

/-- The errors a run lets escape from its handlers: feed `error` payloads
re-thrown by the `error` listener, and the exceptions of a throwing
`matchF` (unhandled rejections of the `data` handler), in order. -/
def escapedErrors (getTx : String → Option String)
    (matchF : String → Except String Bool) (events : List FeedEvent) : List String :=
  events.filterMap fun e =>
    match e with
    | .errorEvent err => some err
    | .dataDone h =>
      match getTx h with
      | none => none
      | some tx =>
        match matchF tx with
        | .error err => some err
        | .ok _ => none

/-- The `mode` argument of `waitForTx` as a JavaScript value: a string, or
any non-string value (on which `.toLowerCase()` throws a `TypeError`). -/
inductive JsMode where
  | str (s : String)
  | nonString
  deriving Repr, DecidableEq

/-- Failures thrown synchronously by `waitForTx` before any subscription is
opened. -/
inductive WaitForTxError where
  | typeError
  | unsupportedMode (msg : String)
  deriving Repr, DecidableEq

/-- JavaScript `String.prototype.toLowerCase`, character by character (the
mode strings of interest are all ASCII). -/
def jsToLowerCase (s : String) : String :=
  String.mk (s.data.map Char.toLower)

/-- `waitForTx(matchF, mode, options)`: lowercases `mode`, dispatches the
switch — only the `'fast'` case is live (the `'cheap'` case is commented
out), the default throws `waitForTx mode <m> is not supported`. -/
def waitForTx (getTx : String → Option String) (matchF : String → Except String Bool)
    (mode : JsMode) (events : List FeedEvent) : Except WaitForTxError WatchSession :=
  match mode with
  | .nonString => .error .typeError
  | .str s =>
    let m := jsToLowerCase s
    if m = "fast" then .ok (waitForTxUsingSubscribePendingTransactions getTx matchF events)
    else .error (.unsupportedMode ("waitForTx mode <" ++ m ++ "> is not supported"))

/-- How many times a `waitForTx` call invokes `_web3.eth.subscribe`: exactly
once inside `waitForTxUsingSubscribePendingTransactions` on the `'fast'`
branch; the `TypeError` and the default `throw` happen before any
subscription is opened. -/
def waitForTxSubscriptionsOpened (mode : JsMode) : Nat :=
  match mode with
  | .str s => if jsToLowerCase s = "fast" then 1 else 0
  | .nonString => 0

/-- Concrete height oracle for the spec's drift scenario: endpoint `A` at
block 100, endpoint `B` at block 105, every other query failing. -/
def heightsScenarioBehind : Heights := fun r =>
  if r = "A" then some 100 else if r = "B" then some 105 else none

/-- Concrete height oracle for the spec's healthy scenario: `A` and `B` at
block 100, `C` at block 99. -/
def heightsScenarioHealthy : Heights := fun r =>
  if r = "A" then some 100
  else if r = "B" then some 100
  else if r = "C" then some 99
  else none

/-- Concrete height oracle on which every endpoint query fails. -/
def heightsAllNone : Heights := fun _ => none

/-- Concrete transaction oracle resolving every hash to itself (no
transaction is ever pruned to `null`). -/
def getTxId : String → Option String := fun h => some h

/-- Concrete predicate accepting every transaction. -/
def matchAll : String → Except String Bool := fun _ => .ok true

/-- Concrete predicate throwing on every transaction. -/
def matchThrow : String → Except String Bool := fun _ => .error "predicate failure"

/-! ### Helper lemmas about the watch session -/

theorem foldl_stepSession_spec (getTx : String → Option String)
    (matchF : String → Except String Bool) (events : List FeedEvent) :
    ∀ s : WatchSession, s.rejectedWith = none →
      events.foldl (stepSession getTx matchF) s =
        ⟨s.resolvedWith.or (matchingCompletions getTx matchF events).head?, none,
         s.unsubscribeCalls + (matchingCompletions getTx matchF events).length,
         s.uncaughtErrors ++ escapedErrors getTx matchF events⟩ := by
  induction events with
  | nil =>
    intro s hr
    cases s
    simp_all [matchingCompletions, escapedErrors]
  | cons e rest ih =>
    intro s hr
    cases e with
    | errorEvent err =>
      rw [List.foldl_cons]
      show (rest.foldl (stepSession getTx matchF) (onError s err)) = _
      rw [ih (onError s err) (by simp [onError, hr])]
      simp [onError, matchingCompletions, escapedErrors, List.filterMap_cons]
    | dataDone h =>
      rw [List.foldl_cons]
      show (rest.foldl (stepSession getTx matchF) (onData getTx matchF s h)) = _
      cases hgt : getTx h with
      | none =>
        rw [show onData getTx matchF s h = s by simp [onData, hgt]]
        rw [ih s hr]
        simp [matchingCompletions, escapedErrors, List.filterMap_cons, hgt]
      | some tx =>
        cases hm : matchF tx with
        | error err =>
          rw [show onData getTx matchF s h = { s with uncaughtErrors := s.uncaughtErrors ++ [err] }
                by simp [onData, hgt, hm]]
          rw [ih _ (by simp [hr])]
          simp [matchingCompletions, escapedErrors, List.filterMap_cons, hgt, hm]
        | ok b =>
          cases b with
          | false =>
            rw [show onData getTx matchF s h = s by simp [onData, hgt, hm]]
            rw [ih s hr]
            simp [matchingCompletions, escapedErrors, List.filterMap_cons, hgt, hm]
          | true =>
            rw [show onData getTx matchF s h =
                  promiseResolve { s with unsubscribeCalls := s.unsubscribeCalls + 1 } tx
                by simp [onData, hgt, hm]]
            by_cases hres : s.resolvedWith = none
            · rw [show promiseResolve { s with unsubscribeCalls := s.unsubscribeCalls + 1 } tx =
                    { s with resolvedWith := some tx,
                             unsubscribeCalls := s.unsubscribeCalls + 1 }
                  by simp [promiseResolve, hres, hr]]
              rw [ih _ (by simp [hr])]
              simp [matchingCompletions, escapedErrors, List.filterMap_cons, hgt, hm, hres]
              omega
            · rw [show promiseResolve { s with unsubscribeCalls := s.unsubscribeCalls + 1 } tx =
                    { s with unsubscribeCalls := s.unsubscribeCalls + 1 }
                  by simp [promiseResolve, hres]]
              rw [ih _ (by simp [hr])]
              simp [matchingCompletions, escapedErrors, List.filterMap_cons, hgt, hm]
              constructor
              · cases hx : s.resolvedWith with
                | none => exact absurd hx hres
                | some x => simp [Option.or]
              · omega

theorem runSession_spec (getTx : String → Option String)
    (matchF : String → Except String Bool) (events : List FeedEvent) :
    waitForTxUsingSubscribePendingTransactions getTx matchF events =
      ⟨(matchingCompletions getTx matchF events).head?, none,
       (matchingCompletions getTx matchF events).length,
       escapedErrors getTx matchF events⟩ := by
  rw [waitForTxUsingSubscribePendingTransactions,
    foldl_stepSession_spec getTx matchF events initSession rfl]
  simp [initSession]

/-! ### Helper lemmas about the sync checker -/

theorem mem_rpcsAfterPush (mainRpc : String) (rpcs : List String) :
    mainRpc ∈ rpcsAfterPush mainRpc rpcs := by
  unfold rpcsAfterPush
  split
  · assumption
  · simp

theorem le_foldl_max (l : List Int) : ∀ a : Int, a ≤ l.foldl max a := by
  induction l with
  | nil => intro a; simp
  | cons b t ih =>
    intro a
    rw [List.foldl_cons]
    exact le_trans (le_max_left a b) (ih (max a b))

theorem mem_le_foldl_max (l : List Int) : ∀ (a x : Int), x ∈ l → x ≤ l.foldl max a := by
  induction l with
  | nil => intro a x h; simp at h
  | cons b t ih =>
    intro a x h
    rw [List.foldl_cons]
    rcases List.mem_cons.1 h with rfl | h
    · exact le_trans (le_max_right a x) (le_foldl_max t _)
    · exact ih _ x h

theorem foldl_max_eq_or_mem (l : List Int) : ∀ a : Int, l.foldl max a = a ∨ l.foldl max a ∈ l := by
  induction l with
  | nil => intro a; left; rfl
  | cons b t ih =>
    intro a
    rw [List.foldl_cons]
    rcases ih (max a b) with h | h
    · rcases max_choice a b with hm | hm
      · left; rw [h, hm]
      · right; rw [h, hm]; exact List.mem_cons_self _ _
    · right; exact List.mem_cons_of_mem _ h

theorem jsMathMax_cons (b : Option Int) (bs : List (Option Int)) :
    jsMathMax (b :: bs) = (bs.map jsCoerceNull).foldl max (jsCoerceNull b) := by
  rw [jsMathMax, List.foldl_map]

theorem le_jsMathMax {bs : List (Option Int)} {b : Option Int} (h : b ∈ bs) :
    jsCoerceNull b ≤ jsMathMax bs := by
  cases bs with
  | nil => simp at h
  | cons b0 t =>
    rw [jsMathMax_cons]
    rcases List.mem_cons.1 h with rfl | h
    · exact le_foldl_max _ _
    · exact mem_le_foldl_max _ _ _ (List.mem_map_of_mem _ h)

theorem jsMathMax_mem_coerced (bs : List (Option Int)) (hne : bs ≠ []) :
    ∃ b ∈ bs, jsMathMax bs = jsCoerceNull b := by
  cases bs with
  | nil => exact absurd rfl hne
  | cons b0 t =>
    rw [jsMathMax_cons]
    rcases foldl_max_eq_or_mem (t.map jsCoerceNull) (jsCoerceNull b0) with h | h
    · exact ⟨b0, List.mem_cons_self _ _, h⟩
    · obtain ⟨b, hb, heq⟩ := List.mem_map.1 h
      exact ⟨b, List.mem_cons_of_mem _ hb, heq.symm⟩

theorem mem_filterMap_id (bs : List (Option Int)) (x : Int) :
    x ∈ bs.filterMap id ↔ some x ∈ bs := by
  rw [List.mem_filterMap]
  constructor
  · rintro ⟨a, ha, hax⟩
    cases a with
    | none => exact absurd hax (by simp)
    | some y =>
      obtain rfl : y = x := by simpa using hax
      exact ha
  · intro h
    exact ⟨some x, h, rfl⟩

theorem specMaxHeight_spec (bs : List (Option Int)) (hne : bs.filterMap id ≠ []) :
    ∃ m, specMaxHeight bs = some m ∧ m ∈ bs.filterMap id ∧ ∀ h ∈ bs.filterMap id, h ≤ m := by
  cases hfm : bs.filterMap id with
  | nil => exact absurd hfm hne
  | cons h0 t =>
    refine ⟨t.foldl max h0, by simp only [specMaxHeight, hfm], ?_, ?_⟩
    · rcases foldl_max_eq_or_mem t h0 with h | h
      · rw [h]; exact List.mem_cons_self _ _
      · exact List.mem_cons_of_mem _ h
    · intro x hx
      rcases List.mem_cons.1 hx with rfl | hx
      · exact le_foldl_max t x
      · exact mem_le_foldl_max t h0 x hx

theorem jsMathMax_eq_specMaxHeight (bs : List (Option Int))
    (hsucc : ∃ b ∈ bs, b ≠ none)
    (hnonneg : ∀ h : Int, some h ∈ bs → 0 ≤ h) :
    some (jsMathMax bs) = specMaxHeight bs := by
  obtain ⟨b, hb, hbne⟩ := hsucc
  obtain ⟨h0, rfl⟩ : ∃ h, b = some h := by
    cases b with
    | none => exact absurd rfl hbne
    | some h => exact ⟨h, rfl⟩
  have hne : bs.filterMap id ≠ [] :=
    List.ne_nil_of_mem ((mem_filterMap_id bs h0).2 hb)
  obtain ⟨m, hm, hm_mem, hm_ub⟩ := specMaxHeight_spec bs hne
  rw [hm]
  congr 1
  apply le_antisymm
  · obtain ⟨b', hb', heq⟩ := jsMathMax_mem_coerced bs (List.ne_nil_of_mem hb)
    rw [heq]
    cases b' with
    | none =>
      show (0 : Int) ≤ m
      exact hnonneg m ((mem_filterMap_id bs m).1 hm_mem)
    | some h' =>
      exact hm_ub h' ((mem_filterMap_id bs h').2 hb')
  · exact le_jsMathMax ((mem_filterMap_id bs m).1 hm_mem)

theorem getD_map_indexOf {α β : Type} [DecidableEq α] (l : List α) (f : α → β) (a : α)
    (d : β) (h : a ∈ l) : (l.map f).getD (l.indexOf a) d = f a := by
  have hlt : l.indexOf a < l.length := List.indexOf_lt_length.2 h
  rw [List.getD_eq_getElem?_getD, List.getElem?_map, List.getElem?_eq_getElem hlt,
    List.getElem_indexOf hlt]
  rfl

theorem checkRpcSync_rpcsFinal (heights : Heights) (mainRpc : String) (rpcs : List String) :
    (checkRpcSync heights mainRpc rpcs).rpcsFinal = rpcsAfterPush mainRpc rpcs := rfl

theorem checkRpcSync_maxBlock (heights : Heights) (mainRpc : String) (rpcs : List String) :
    (checkRpcSync heights mainRpc rpcs).maxBlock = jsMathMax (blocksOf heights mainRpc rpcs) := rfl

theorem checkRpcSync_report (heights : Heights) (mainRpc : String) (rpcs : List String) :
    (checkRpcSync heights mainRpc rpcs).report =
      (rpcsAfterPush mainRpc rpcs).map fun rpc =>
        { rpc := rpc
          block := heights rpc
          classification := classifyBlock (jsMathMax (blocksOf heights mainRpc rpcs)) (heights rpc)
          isMain := rpc == mainRpc } := rfl

theorem checkRpcSync_result (heights : Heights) (mainRpc : String) (rpcs : List String) :
    (checkRpcSync heights mainRpc rpcs).result =
      match heights mainRpc with
      | none => .error (.mainUnreachable mainRpc)
      | some b =>
        if b = jsMathMax (blocksOf heights mainRpc rpcs) then .ok .healthy
        else if b = jsMathMax (blocksOf heights mainRpc rpcs) - 1 then .ok .oneBlockBehind
        else .error (.mainTooFarBehind mainRpc b (jsMathMax (blocksOf heights mainRpc rpcs))) := by
  show (match ((rpcsAfterPush mainRpc rpcs).map heights).getD
          ((rpcsAfterPush mainRpc rpcs).indexOf mainRpc) none with
        | none => (Except.error (CheckRpcError.mainUnreachable mainRpc) :
            Except CheckRpcError CheckVerdict)
        | some b =>
          if b = jsMathMax (blocksOf heights mainRpc rpcs) then Except.ok CheckVerdict.healthy
          else if b = jsMathMax (blocksOf heights mainRpc rpcs) - 1 then
            Except.ok CheckVerdict.oneBlockBehind
          else Except.error
            (CheckRpcError.mainTooFarBehind mainRpc b (jsMathMax (blocksOf heights mainRpc rpcs)))) = _
  rw [getD_map_indexOf _ heights mainRpc none (mem_rpcsAfterPush mainRpc rpcs)]

theorem classifyBlock_iff (mx : Int) (b : Option Int) :
    (classifyBlock mx b = SyncClassification.upToDate ↔ b = some mx)
    ∧ (classifyBlock mx b = SyncClassification.oneBehind ↔ b = some (mx - 1))
    ∧ (classifyBlock mx b = SyncClassification.unreachable ↔ b = none)
    ∧ (classifyBlock mx b = SyncClassification.stale ↔
        ∃ h : Int, b = some h ∧ h ≠ mx ∧ h ≠ mx - 1) := by
  cases b with
  | none => simp [classifyBlock]
  | some v =>
    by_cases h1 : v = mx
    · refine ⟨by simp [classifyBlock, h1], by simp [classifyBlock, h1]; omega,
        by simp [classifyBlock, h1], by simp [classifyBlock, h1]⟩
    · by_cases h2 : v = mx - 1
      · refine ⟨?_, ?_, ?_, ?_⟩ <;> simp [classifyBlock, h1, h2]
      · refine ⟨?_, ?_, ?_, ?_⟩ <;> simp [classifyBlock, h1, h2]

/-! ### Claim theorems -/

/-- C1: In every `checkRpcSync` call where at least one endpoint height query
succeeds and every successfully returned height is non-negative, the
computed maximum block (`Math.max(...blocks)`, failed queries mapped to
`null` and coerced to `0` by JavaScript) equals the maximum of the
successfully returned (non-`null`) heights; failed queries do not affect
this maximum. -/
theorem checkRpcSync_maxBlock_eq_specMax (heights : Heights) (mainRpc : String)
    (rpcs : List String)
    (hsucc : ∃ b ∈ blocksOf heights mainRpc rpcs, b ≠ none)
    (hnonneg : ∀ b ∈ blocksOf heights mainRpc rpcs, 0 ≤ b.getD 0) :
    some (checkRpcSync heights mainRpc rpcs).maxBlock =
      specMaxHeight (blocksOf heights mainRpc rpcs) := by
  rw [checkRpcSync_maxBlock]
  refine jsMathMax_eq_specMaxHeight _ hsucc ?_
  intro h hh
  simpa using hnonneg (some h) hh

/-- C1 witness: the spec's drift scenario, main `A` at 100 and peer `B` at
105, instantiates the theorem. -/
theorem checkRpcSync_maxBlock_eq_specMax_witness :
    some (checkRpcSync heightsScenarioBehind "A" ["B"]).maxBlock =
      specMaxHeight (blocksOf heightsScenarioBehind "A" ["B"]) :=
  checkRpcSync_maxBlock_eq_specMax heightsScenarioBehind "A" ["B"] (by decide) (by decide)

/-- C3 (amended): when every endpoint height query fails, `checkRpcSync`
throws the main-unreachable error `The main RPC <endpoint> is probably
down` — the code has no distinct all-endpoints-unreachable error — and it
does so only after the classification loop has run, classifying every
endpoint in the report as unreachable. -/
theorem checkRpcSync_allNull (heights : Heights) (mainRpc : String) (rpcs : List String)
    (hall : ∀ b ∈ blocksOf heights mainRpc rpcs, b = none) :
    (checkRpcSync heights mainRpc rpcs).result =
        Except.error (CheckRpcError.mainUnreachable mainRpc)
    ∧ renderCheckError (CheckRpcError.mainUnreachable mainRpc) =
        "The main RPC " ++ mainRpc ++ " is probably down"
    ∧ ∀ line ∈ (checkRpcSync heights mainRpc rpcs).report,
        line.classification = SyncClassification.unreachable := by
  have hmain : heights mainRpc = none :=
    hall (heights mainRpc) (List.mem_map_of_mem heights (mem_rpcsAfterPush mainRpc rpcs))
  refine ⟨?_, rfl, ?_⟩
  · rw [checkRpcSync_result, hmain]
  · intro line hline
    rw [checkRpcSync_report] at hline
    obtain ⟨rpc, hrpc, rfl⟩ := List.mem_map.1 hline
    have hnull : heights rpc = none := hall _ (List.mem_map_of_mem heights hrpc)
    simp [classifyBlock, hnull]

/-- C3 witness: a single unreachable endpoint instantiates the amended
theorem. -/
theorem checkRpcSync_allNull_witness :
    (checkRpcSync heightsAllNone "A" []).result =
      Except.error (CheckRpcError.mainUnreachable "A") :=
  (checkRpcSync_allNull heightsAllNone "A" [] (by decide)).1

/-- C3 counterexample: with one endpoint whose query fails (all heights
`null`), the code does not fail with a distinct all-endpoints-unreachable
error and it does not skip classification: it produces a report entry
classifying the endpoint as unreachable, and then throws the
main-unreachable error whose message is `The main RPC A is probably
down`. -/
theorem checkRpcSync_allNull_counterexample :
    (checkRpcSync heightsAllNone "A" []).result =
        Except.error (CheckRpcError.mainUnreachable "A")
    ∧ renderCheckError (CheckRpcError.mainUnreachable "A") = "The main RPC A is probably down"
    ∧ (checkRpcSync heightsAllNone "A" []).report =
        [{ rpc := "A", block := none,
           classification := SyncClassification.unreachable, isMain := true }] := by
  decide

/-- C9: when the main endpoint is not already in the caller's peer list,
`rpcs.push(mainRpc)` mutates that very array in place: after the call the
caller's array is its old contents followed by the main endpoint, the
existing elements and their order unchanged (`rpcsFinal` models the array's
state after the call). -/
theorem checkRpcSync_push_mutates (heights : Heights) (mainRpc : String) (rpcs : List String)
    (h : mainRpc ∉ rpcs) :
    (checkRpcSync heights mainRpc rpcs).rpcsFinal = rpcs ++ [mainRpc]
    ∧ ((checkRpcSync heights mainRpc rpcs).rpcsFinal).take rpcs.length = rpcs := by
  have heq : (checkRpcSync heights mainRpc rpcs).rpcsFinal = rpcs ++ [mainRpc] := by
    rw [checkRpcSync_rpcsFinal, rpcsAfterPush, if_neg h]
  exact ⟨heq, by rw [heq, List.take_left]⟩

/-- C9 witness: main endpoint `A` absent from the peer list `["B"]` is
appended to it. -/
theorem checkRpcSync_push_mutates_witness :
    (checkRpcSync heightsScenarioBehind "A" ["B"]).rpcsFinal = ["B", "A"] :=
  (checkRpcSync_push_mutates heightsScenarioBehind "A" ["B"] (by decide)).1

/-- C4: given at least one height query succeeded, `checkRpcSync` succeeds
iff the main endpoint's height equals `maxBlock` or `maxBlock - 1`; a
`null` main height throws the main-unreachable error whose message is of
the form `<endpoint> is probably down` (prefixed by `The main RPC `), and a
main height more than one block behind throws the too-far-behind error
whose message is of the form `<endpoint> is at block <h>/<maxHeight>`
(same prefix). -/
theorem checkRpcSync_main_decision (heights : Heights) (mainRpc : String) (rpcs : List String)
    (_hsucc : ∃ b ∈ blocksOf heights mainRpc rpcs, b ≠ none) :
    ((∃ v, (checkRpcSync heights mainRpc rpcs).result = Except.ok v) ↔
      (heights mainRpc = some (checkRpcSync heights mainRpc rpcs).maxBlock ∨
        heights mainRpc = some ((checkRpcSync heights mainRpc rpcs).maxBlock - 1)))
    ∧ (heights mainRpc = none →
        (checkRpcSync heights mainRpc rpcs).result =
          Except.error (CheckRpcError.mainUnreachable mainRpc)
        ∧ renderCheckError (CheckRpcError.mainUnreachable mainRpc) =
          "The main RPC " ++ (mainRpc ++ " is probably down"))
    ∧ (∀ h : Int, heights mainRpc = some h →
        h < (checkRpcSync heights mainRpc rpcs).maxBlock - 1 →
        (checkRpcSync heights mainRpc rpcs).result =
          Except.error (CheckRpcError.mainTooFarBehind mainRpc h
            (checkRpcSync heights mainRpc rpcs).maxBlock)
        ∧ renderCheckError (CheckRpcError.mainTooFarBehind mainRpc h
            (checkRpcSync heights mainRpc rpcs).maxBlock) =
          "The main RPC " ++ (mainRpc ++ (" is at block " ++ (toString h ++ ("/" ++
            toString (checkRpcSync heights mainRpc rpcs).maxBlock))))) := by
  simp only [checkRpcSync_result, checkRpcSync_maxBlock]
  refine ⟨?_, ?_, ?_⟩
  · cases hh : heights mainRpc with
    | none => simp
    | some b =>
      by_cases h1 : b = jsMathMax (blocksOf heights mainRpc rpcs)
      · simp [h1]
      · by_cases h2 : b = jsMathMax (blocksOf heights mainRpc rpcs) - 1
        · simp [h1, h2]
        · simp [h1, h2]
  · intro hh
    rw [hh]
    exact ⟨rfl, by simp [renderCheckError, String.append_assoc]⟩
  · intro h hh hlt
    have h1 : ¬(h = jsMathMax (blocksOf heights mainRpc rpcs)) := by omega
    have h2 : ¬(h = jsMathMax (blocksOf heights mainRpc rpcs) - 1) := by omega
    simp only [hh, if_neg h1, if_neg h2]
    exact ⟨trivial, by simp [renderCheckError, String.append_assoc]⟩

/-- C4 witness: the spec's drift scenario — main `A` at block 100, peer `B`
at block 105 — throws the too-far-behind error `The main RPC A is at block
100/105`. -/
theorem checkRpcSync_main_decision_witness :
    (checkRpcSync heightsScenarioBehind "A" ["B"]).result =
        Except.error (CheckRpcError.mainTooFarBehind "A" 100 105)
    ∧ renderCheckError (CheckRpcError.mainTooFarBehind "A" 100 105) =
        "The main RPC A is at block 100/105" := by
  have hmx : (checkRpcSync heightsScenarioBehind "A" ["B"]).maxBlock = 105 := by decide
  have h := (checkRpcSync_main_decision heightsScenarioBehind "A" ["B"] (by decide)).2.2
    100 (by decide) (by rw [hmx]; decide)
  rw [hmx] at h
  exact ⟨h.1, by decide⟩

/-- C5: for every endpoint in a check with at least one successful height
query (and non-negative heights), the reported classification follows the
rule table relative to the maximum height: up-to-date iff at `maxHeight`,
one-behind iff at `maxHeight - 1`, unreachable iff the query failed, stale
otherwise; moreover no reported height exceeds `maxHeight` (an endpoint
cannot be ahead of the observed maximum), and the check — a total
function — cannot crash on any height. -/
theorem checkRpcSync_rule_table (heights : Heights) (mainRpc : String) (rpcs : List String)
    (hsucc : ∃ b ∈ blocksOf heights mainRpc rpcs, b ≠ none)
    (hnonneg : ∀ b ∈ blocksOf heights mainRpc rpcs, 0 ≤ b.getD 0) :
    ∃ mx : Int, specMaxHeight (blocksOf heights mainRpc rpcs) = some mx
      ∧ (checkRpcSync heights mainRpc rpcs).maxBlock = mx
      ∧ ∀ line ∈ (checkRpcSync heights mainRpc rpcs).report,
          (line.classification = SyncClassification.upToDate ↔ line.block = some mx)
          ∧ (line.classification = SyncClassification.oneBehind ↔ line.block = some (mx - 1))
          ∧ (line.classification = SyncClassification.unreachable ↔ line.block = none)
          ∧ (line.classification = SyncClassification.stale ↔
              ∃ h : Int, line.block = some h ∧ h ≠ mx ∧ h ≠ mx - 1)
          ∧ ∀ h : Int, line.block = some h → h ≤ mx := by
  have hspec : some (jsMathMax (blocksOf heights mainRpc rpcs)) =
      specMaxHeight (blocksOf heights mainRpc rpcs) :=
    jsMathMax_eq_specMaxHeight _ hsucc (fun h hh => by simpa using hnonneg (some h) hh)
  refine ⟨jsMathMax (blocksOf heights mainRpc rpcs), hspec.symm,
    checkRpcSync_maxBlock heights mainRpc rpcs, ?_⟩
  intro line hline
  rw [checkRpcSync_report] at hline
  obtain ⟨rpc, hrpc, rfl⟩ := List.mem_map.1 hline
  have hle : ∀ h : Int, heights rpc = some h →
      h ≤ jsMathMax (blocksOf heights mainRpc rpcs) := by
    intro h hh
    have hmem : some h ∈ blocksOf heights mainRpc rpcs := by
      rw [← hh]
      exact List.mem_map_of_mem heights hrpc
    simpa [jsCoerceNull] using le_jsMathMax hmem
  have hiff := classifyBlock_iff (jsMathMax (blocksOf heights mainRpc rpcs)) (heights rpc)
  exact ⟨hiff.1, hiff.2.1, hiff.2.2.1, hiff.2.2.2, hle⟩

/-- C5 witness: the spec's healthy scenario — `A`, `B` at block 100, `C` at
block 99, main `A` — has maximum height 100. -/
theorem checkRpcSync_rule_table_witness :
    specMaxHeight (blocksOf heightsScenarioHealthy "A" ["A", "B", "C"]) = some 100
    ∧ (checkRpcSync heightsScenarioHealthy "A" ["A", "B", "C"]).maxBlock = 100 := by
  obtain ⟨mx, h1, h2, _⟩ :=
    checkRpcSync_rule_table heightsScenarioHealthy "A" ["A", "B", "C"] (by decide) (by decide)
  have hmx : (checkRpcSync heightsScenarioHealthy "A" ["A", "B", "C"]).maxBlock = 100 := by
    decide
  rw [hmx] at h2
  rw [← h2] at h1
  exact ⟨h1, hmx⟩

/-- C8 counterexample: with main endpoint `A` and the duplicated peer list
`["B", "B"]`, the code issues one height query per array element: `B` is
queried twice and three queries are made, but there are only two distinct
endpoints — duplicate peers are re-queried, so the query count does not
equal the number of distinct endpoints. -/
theorem checkRpcSync_query_count_counterexample :
    rpcsAfterPush "A" ["B", "B"] = ["B", "B", "A"]
    ∧ (blocksOf heightsScenarioBehind "A" ["B", "B"]).length = 3
    ∧ (rpcsAfterPush "A" ["B", "B"]).count "B" = 2
    ∧ (rpcsAfterPush "A" ["B", "B"]).dedup.length = 2 := by
  decide

/-- C8 (amended): `checkRpcSync` issues one height query per element of the
(post-push) `rpcs` array; the main endpoint is implicitly included exactly
once when absent and is not re-queried when present, so when the
caller-supplied peer list itself has no duplicates each distinct endpoint
is queried exactly once and the query count equals the number of distinct
endpoints.  Duplicates inside the peer list, however, are re-queried. -/
theorem checkRpcSync_query_count (heights : Heights) (mainRpc : String) (rpcs : List String)
    (hnd : rpcs.Nodup) :
    ((checkRpcSync heights mainRpc rpcs).rpcsFinal).Nodup
    ∧ ((checkRpcSync heights mainRpc rpcs).rpcsFinal).toFinset = insert mainRpc rpcs.toFinset
    ∧ (blocksOf heights mainRpc rpcs).length = (insert mainRpc rpcs.toFinset).card := by
  rw [checkRpcSync_rpcsFinal]
  have hlen : (blocksOf heights mainRpc rpcs).length = (rpcsAfterPush mainRpc rpcs).length :=
    List.length_map _ _
  by_cases h : mainRpc ∈ rpcs
  · have hpush : rpcsAfterPush mainRpc rpcs = rpcs := by rw [rpcsAfterPush, if_pos h]
    have hins : insert mainRpc rpcs.toFinset = rpcs.toFinset :=
      Finset.insert_eq_self.2 (List.mem_toFinset.2 h)
    refine ⟨by rw [hpush]; exact hnd, by rw [hpush, hins], ?_⟩
    rw [hlen, hpush, hins, List.toFinset_card_of_nodup hnd]
  · have hpush : rpcsAfterPush mainRpc rpcs = rpcs ++ [mainRpc] := by
      rw [rpcsAfterPush, if_neg h]
    have hnd' : (rpcs ++ [mainRpc]).Nodup := by
      rw [List.nodup_append]
      exact ⟨hnd, List.nodup_singleton _, by simpa [List.disjoint_singleton] using h⟩
    have htf : (rpcs ++ [mainRpc]).toFinset = insert mainRpc rpcs.toFinset := by
      rw [List.toFinset_append]
      simp [Finset.union_comm, Finset.insert_eq]
    refine ⟨by rw [hpush]; exact hnd', by rw [hpush, htf], ?_⟩
    rw [hlen, hpush, ← htf, List.toFinset_card_of_nodup hnd']

/-- C8 witness: a duplicate-free peer list `["B"]` with main endpoint `A`
instantiates the amended theorem. -/
theorem checkRpcSync_query_count_witness :
    ((checkRpcSync heightsScenarioBehind "A" ["B"]).rpcsFinal).Nodup
    ∧ ((checkRpcSync heightsScenarioBehind "A" ["B"]).rpcsFinal).toFinset =
        insert "A" (List.toFinset ["B"])
    ∧ (blocksOf heightsScenarioBehind "A" ["B"]).length =
        (insert "A" (List.toFinset ["B"])).card :=
  checkRpcSync_query_count heightsScenarioBehind "A" ["B"] (by decide)

/-- C2 counterexample: with two pending hashes both resolving to matching
transactions, both `data`-handler completions run their match block (there
is no `resolved` guard): the call resolves once, with the first match, but
`subscription.unsubscribe()` is called twice — not exactly once per
session. -/
theorem waitForTx_unsubscribe_once_counterexample :
    (waitForTxUsingSubscribePendingTransactions getTxId matchAll
        [FeedEvent.dataDone "t1", FeedEvent.dataDone "t2"]).resolvedWith = some "t1"
    ∧ (waitForTxUsingSubscribePendingTransactions getTxId matchAll
        [FeedEvent.dataDone "t1", FeedEvent.dataDone "t2"]).unsubscribeCalls = 2 := by
  decide

/-- C2 (amended): a `"fast"` watch session resolves with the first
transaction whose predicate evaluation completes with `true`, and at most
one resolution of the call occurs (the `Promise` settles once) even when
several predicate evaluations match; but `unsubscribe` is called once per
matching predicate completion — one call on the resolving match, and one
more per further concurrent match — not exactly once per session. -/
theorem waitForTx_fast_first_match (getTx : String → Option String)
    (matchF : String → Except String Bool) (events : List FeedEvent) :
    waitForTx getTx matchF (JsMode.str "fast") events =
        Except.ok (waitForTxUsingSubscribePendingTransactions getTx matchF events)
    ∧ (waitForTxUsingSubscribePendingTransactions getTx matchF events).resolvedWith =
        (matchingCompletions getTx matchF events).head?
    ∧ (waitForTxUsingSubscribePendingTransactions getTx matchF events).unsubscribeCalls =
        (matchingCompletions getTx matchF events).length := by
  refine ⟨by simp [waitForTx, jsToLowerCase], ?_, ?_⟩ <;> rw [runSession_spec]

/-- C6 counterexample: an error thrown by the predicate (first conjunct
block) and a feed `error` event (second block) each leave the session
without any `unsubscribe` call, and neither rejects the watch call's
promise — the error merely escapes as an uncaught exception. -/
theorem waitForTx_error_teardown_counterexample :
    ((waitForTxUsingSubscribePendingTransactions getTxId matchThrow
        [FeedEvent.dataDone "t1"]).unsubscribeCalls = 0
      ∧ (waitForTxUsingSubscribePendingTransactions getTxId matchThrow
          [FeedEvent.dataDone "t1"]).rejectedWith = none
      ∧ (waitForTxUsingSubscribePendingTransactions getTxId matchThrow
          [FeedEvent.dataDone "t1"]).uncaughtErrors = ["predicate failure"])
    ∧ ((waitForTxUsingSubscribePendingTransactions getTxId matchAll
        [FeedEvent.errorEvent "subscription dropped"]).unsubscribeCalls = 0
      ∧ (waitForTxUsingSubscribePendingTransactions getTxId matchAll
          [FeedEvent.errorEvent "subscription dropped"]).rejectedWith = none
      ∧ (waitForTxUsingSubscribePendingTransactions getTxId matchAll
          [FeedEvent.errorEvent "subscription dropped"]).uncaughtErrors =
            ["subscription dropped"]) := by
  decide

/-- C6 (amended): on the error exits of a `"fast"` watch session — a feed
`error` event or an error thrown by the predicate — the session does NOT
unsubscribe and the error does NOT propagate as a rejection of the watch
call: the promise is never rejected, every such error escapes the handlers
as an uncaught exception (the `error` listener re-throws inside the
emitter; a throwing predicate rejects the `async` `data` handler
unhandled), and `unsubscribe` calls arise only from matching
completions. -/
theorem waitForTx_error_paths (getTx : String → Option String)
    (matchF : String → Except String Bool) (events : List FeedEvent) :
    (waitForTxUsingSubscribePendingTransactions getTx matchF events).rejectedWith = none
    ∧ (waitForTxUsingSubscribePendingTransactions getTx matchF events).uncaughtErrors =
        escapedErrors getTx matchF events
    ∧ (waitForTxUsingSubscribePendingTransactions getTx matchF events).unsubscribeCalls =
        (matchingCompletions getTx matchF events).length := by
  rw [runSession_spec]
  exact ⟨rfl, rfl, rfl⟩

/-- C7: for every mode string whose lowercasing is not `"fast"`, `waitForTx`
throws `waitForTx mode <m> is not supported` without opening any
subscription; in particular the documented `"cheap"` mode fails this
way. -/
theorem waitForTx_unsupported_mode (getTx : String → Option String)
    (matchF : String → Except String Bool) (events : List FeedEvent) (s : String)
    (h : jsToLowerCase s ≠ "fast") :
    waitForTx getTx matchF (JsMode.str s) events =
        Except.error (WaitForTxError.unsupportedMode
          ("waitForTx mode <" ++ jsToLowerCase s ++ "> is not supported"))
    ∧ waitForTxSubscriptionsOpened (JsMode.str s) = 0 := by
  constructor
  · simp [waitForTx, h]
  · simp [waitForTxSubscriptionsOpened, h]

/-- C7 witness: the `"cheap"` mode throws the unsupported-mode error
without opening a subscription. -/
theorem waitForTx_unsupported_mode_witness :
    waitForTx getTxId matchAll (JsMode.str "cheap") [] =
        Except.error (WaitForTxError.unsupportedMode
          "waitForTx mode <cheap> is not supported")
    ∧ waitForTxSubscriptionsOpened (JsMode.str "cheap") = 0 := by
  have h := waitForTx_unsupported_mode getTxId matchAll [] "cheap" (by decide)
  have hmsg : ("waitForTx mode <" ++ jsToLowerCase "cheap" ++ "> is not supported") =
      "waitForTx mode <cheap> is not supported" := by decide
  rw [hmsg] at h
  exact h

/-- C10: `waitForTx` lowercases its mode argument before dispatching, so
mode selection is case-insensitive: every string lowercasing to `"fast"`
runs the subscription-based watch, exactly the strings that do not
lowercase to `"fast"` fail with the unsupported-mode error, and a
non-string mode fails with a `TypeError` (from `.toLowerCase()`) instead
of the unsupported-mode error. -/
theorem waitForTx_mode_case_insensitive (getTx : String → Option String)
    (matchF : String → Except String Bool) (events : List FeedEvent) :
    (∀ s : String, jsToLowerCase s = "fast" →
        waitForTx getTx matchF (JsMode.str s) events =
          Except.ok (waitForTxUsingSubscribePendingTransactions getTx matchF events))
    ∧ (∀ s : String, jsToLowerCase s ≠ "fast" →
        ∃ msg, waitForTx getTx matchF (JsMode.str s) events =
          Except.error (WaitForTxError.unsupportedMode msg))
    ∧ waitForTx getTx matchF JsMode.nonString events = Except.error WaitForTxError.typeError := by
  refine ⟨?_, ?_, rfl⟩
  · intro s hs
    simp [waitForTx, hs]
  · intro s hs
    exact ⟨"waitForTx mode <" ++ jsToLowerCase s ++ "> is not supported",
      by simp [waitForTx, hs]⟩

/-- C10 witness: the capitalization `"FAST"` selects the subscription-based
watch, and a non-string mode fails with a `TypeError`. -/
theorem waitForTx_mode_case_insensitive_witness :
    waitForTx getTxId matchAll (JsMode.str "FAST") [] =
        Except.ok (waitForTxUsingSubscribePendingTransactions getTxId matchAll [])
    ∧ waitForTx getTxId matchAll JsMode.nonString [] = Except.error WaitForTxError.typeError :=
  ⟨(waitForTx_mode_case_insensitive getTxId matchAll []).1 "FAST" (by decide),
    (waitForTx_mode_case_insensitive getTxId matchAll []).2.2⟩

end Web3Utils
